import Mathlib

/-!
# Verification of node-rescheduler (`src/index.js`)

Shallow embedding of the ReScheduler module: a scheduler that stores opaque
payloads in a Redis sorted set (`<targetList>-scheduler`) scored by their
execution timestamp, and periodically promotes ready payloads (score ≤ now)
onto a Redis list (`targetList`).

The Redis primitives the module uses (`zadd`, `zcard`, `zrangebyscore`,
`zremrangebyscore`, `zrem`, `rpush`, `blpop`) are modelled over explicit
state: a sorted set is a list of (payload, score) entries kept in Redis's
internal order (ascending score, ties by payload), and the destination list
is a plain list of payloads.  Scores are `Int` since JavaScript timestamps
(`Date.getTime()`) may be negative for pre-1970 dates.
-/

namespace ReScheduler

abbrev Payload := String

/-- One member of the scheduler sorted set: a payload and its score
(the execution timestamp in milliseconds since the epoch). -/
structure ZEntry where
  payload : Payload
  score : Int
deriving DecidableEq, Repr

/-- Redis's internal ordering of sorted-set members: ascending score,
ties broken by lexicographic member comparison. -/
def zkeyLE (a b : ZEntry) : Bool :=
  a.score < b.score || (a.score == b.score && a.payload ≤ b.payload)

/-- Insert an entry into the sorted-set representation, keeping it ordered. -/
def zinsert (e : ZEntry) : List ZEntry → List ZEntry
  | [] => [e]
  | x :: xs => if zkeyLE e x then e :: x :: xs else x :: zinsert e xs

/-- `ZADD key score member` as used by `enqueueAt` (src/index.js:99-105):
upserts the member, returning 1 if it was newly added and 0 if an existing
member's score was updated. -/
def zadd (z : List ZEntry) (score : Int) (payload : Payload) : List ZEntry × Nat :=
  let existed := payload ∈ z.map ZEntry.payload
  let z' := zinsert ⟨payload, score⟩ (z.filter (fun e => !(e.payload == payload)))
  (z', if existed then 0 else 1)

/-- `ZCARD`: cardinality of the sorted set (src/index.js:117-122). -/
def zcard (z : List ZEntry) : Nat := z.length

/-- `ZRANGEBYSCORE key min max`: members with `min ≤ score ≤ max`, in the
set's (ascending) order. -/
def zrangebyscore (z : List ZEntry) (min max : Int) : List ZEntry :=
  z.filter (fun e => min ≤ e.score && e.score ≤ max)

/-- `ZREMRANGEBYSCORE key min max`: delete members with `min ≤ score ≤ max`. -/
def zremrangebyscore (z : List ZEntry) (min max : Int) : List ZEntry :=
  z.filter (fun e => !(min ≤ e.score && e.score ≤ max))

/-- `ZREM key member...`: delete the named members. -/
def zrem (z : List ZEntry) (members : List Payload) : List ZEntry :=
  z.filter (fun e => !(members.contains e.payload))

/-- `RPUSH key v...`: append values to the tail of the list, in argument order. -/
def rpush (q : List Payload) (vs : List Payload) : List Payload := q ++ vs

/-- The two Redis keys the scheduler touches: the holding sorted set
(`zsetName`) and the destination list (`targetList`). -/
structure RedisState where
  zset : List ZEntry
  queue : List Payload
deriving DecidableEq, Repr

/-- `enqueueAt(date, payload)` (src/index.js:99-105): the `date` argument is
coerced to a numeric timestamp (`date.getTime()` for Date objects), then
`zadd` is issued.  Returns the updated sorted set and the 0/1 reply. -/
def enqueueAt (timestamp : Int) (payload : Payload) (z : List ZEntry) :
    List ZEntry × Nat :=
  zadd z timestamp payload

/-- The Lua script (src/index.js:24-30), run atomically server-side:
`zrangebyscore zset 0 maxTs` collects the winners; if none, return 0;
otherwise `rpush` them onto the destination list in that order, delete the
score range `[0, maxTs]` from the set, and return the number of winners. -/
def luaCheck (maxTimestamp : Int) (s : RedisState) : RedisState × Nat :=
  let winners := zrangebyscore s.zset 0 maxTimestamp
  if winners.length = 0 then (s, 0)
  else ({ zset := zremrangebyscore s.zset 0 maxTimestamp,
          queue := rpush s.queue (winners.map ZEntry.payload) },
        winners.length)

/-- The client-side fallback path of `checkNow` (src/index.js:149-177), used
when server-side eval is unavailable: `zrangebyscore zset 0 maxTs`; if empty,
call back with 0; otherwise `rpush` the payloads onto the destination list
(the JS unshifts the list key onto the payload array to build the command),
then `zrem` exactly those members from the set, and call back with
`scheduledPayloads.length - 1`, i.e. the number of payloads moved. -/
def fallbackCheck (maxTimestamp : Int) (s : RedisState) : RedisState × Nat :=
  let scheduledPayloads := (zrangebyscore s.zset 0 maxTimestamp).map ZEntry.payload
  if scheduledPayloads.length = 0 then (s, 0)
  else ({ zset := zrem s.zset scheduledPayloads,
          queue := rpush s.queue scheduledPayloads },
        scheduledPayloads.length)

/-- `checkNow` (src/index.js:129-180).  `ready` is `client.ready`;
`usingServerEval` is the cached `_usingServerEval` capability flag;
`maxTimestamp` is `(new Date()).getTime()` at the moment of the call.
If the client is not ready the callback receives an Error; otherwise the
server-side script or the three-step fallback runs and the callback receives
the number of payloads moved. -/
def checkNow (ready usingServerEval : Bool) (maxTimestamp : Int)
    (s : RedisState) : Except String (RedisState × Nat) :=
  if !ready then
    .error "Do not call checkNow() until the Redis client is ready"
  else if usingServerEval then
    .ok (luaCheck maxTimestamp s)
  else
    .ok (fallbackCheck maxTimestamp s)

/-- The sorted set's internal order as a proposition: strictly ascending by
(score, payload). -/
def ZSorted (z : List ZEntry) : Prop :=
  z.Pairwise (fun a b => a.score < b.score ∨ (a.score = b.score ∧ a.payload < b.payload))

/-- `minVersionForEval = [ 2, 6, 0 ]` (src/index.js:6): the minimum Redis
version supporting server-side Lua eval, as a (major, minor, patch) triple. -/
def minVersionForEval : Nat × Nat × Nat := (2, 6, 0)

/-- The capability decision of `onReady` (src/index.js:287-304): if
`options.forceNoServerEval` is set, server eval is never used; otherwise the
nested comparisons of `serverVersion` against `minVersionForEval` run, and
`canUseEval` stays at its `undefined` (falsy) initial value on every branch
that does not set it to `true`.  The result is cached as `_usingServerEval`. -/
def onReadyCanUseEval (forceNoServerEval : Bool) (serverVersion : Nat × Nat × Nat) :
    Bool :=
  if forceNoServerEval then false
  else if serverVersion.1 > minVersionForEval.1 then true
  else if serverVersion.1 = minVersionForEval.1 then
    if serverVersion.2.1 ≥ minVersionForEval.2.1 then true
    else if serverVersion.2.1 = minVersionForEval.2.1 then
      if serverVersion.2.2 ≥ minVersionForEval.2.2 then true else false
    else false
  else false

/-- The spec's wording of capability negotiation, for comparison with the
code's `onReadyCanUseEval`: the version triple is at least the minimum
lexicographically — greater major always qualifies; equal major requires
minor ≥ minimum minor, with equal minor requiring patch ≥ minimum patch. -/
def specVersionAtLeast (v m : Nat × Nat × Nat) : Bool :=
  decide (v.1 > m.1) ||
    (decide (v.1 = m.1) &&
      (decide (v.2.1 > m.2.1) ||
        (decide (v.2.1 = m.2.1) && decide (v.2.2 ≥ m.2.2))))

/-- A call issued to the backing store by `pop`. -/
inductive StoreCall
  | blpop (key : String) (timeoutSeconds : Nat)
deriving DecidableEq, Repr

/-- How a `pop` call finishes, as observed by the caller. -/
inductive PopOutcome
  /-- The callback was invoked with an Error as its first argument. -/
  | cbError (msg : String)
  /-- The callback was invoked with `(null, v)`; `none` stands for the
  JavaScript `undefined`. -/
  | cbValue (v : Option Payload)
  /-- Evaluating `res[1]` threw a TypeError because `res` was `null`
  (the nil reply node_redis produces for a timed-out `blpop`). -/
  | typeError
deriving DecidableEq, Repr

/-- `pop(popClient, timeout, callback)` (src/index.js:189-209).  Clients are
identified by handles compared with `===`; `schedClient` is the handle the
constructor stored in `this.client`.  An omitted `timeout` (the callback
passed in its position) defaults to 0.  If `popClient` is the scheduling
client, the callback immediately receives a usage Error and no store command
is issued.  Otherwise one `blpop` is issued; `reply` is its result: an error,
a `[key, value]` pair, or `none` for the nil reply on timeout — in which case
the JS handler evaluates `res[1]` on `null`, which throws.  Returns the list
of store calls issued and the observed outcome. -/
def pop (schedClient popClient : Nat) (targetList : String)
    (timeout : Option Nat) (reply : Except String (Option (String × Payload))) :
    List StoreCall × PopOutcome :=
  let t := timeout.getD 0
  if popClient = schedClient then
    ([], .cbError
      "The Redis client provided to pop() is the same as that being used for scheduling!")
  else
    ([.blpop targetList t],
      match reply with
      | .error e => .cbError e
      | .ok (some kv) => .cbValue (some kv.2)
      | .ok none => .typeError)

/-- The observable state the `qWrap` machinery (src/index.js:228-248) acts
on.  `qWrap`'s guard variable `wrapped` lives in the closure of an IIFE that
runs once when the prototype object is built, so it is shared by every
instance of the class; `promisify.call(this, ...)` rewrites the five
callback methods as own properties of the one instance `qWrap` was invoked
on.  `promisifiedInstances` records which instances have had their methods
rewritten. -/
structure QWrapWorld where
  wrapped : Bool
  promisifiedInstances : List Nat
deriving DecidableEq, Repr

/-- One call of `inst.qWrap()` (src/index.js:232-246): if the shared
`wrapped` flag is already set, nothing happens; otherwise the calling
instance's `enqueueAt`, `enqueueIn`, `scheduledCount`, `checkNow` and `pop`
are promisified and `wrapped` is set. -/
def qWrapCall (w : QWrapWorld) (inst : Nat) : QWrapWorld :=
  if w.wrapped then w
  else { wrapped := true, promisifiedInstances := inst :: w.promisifiedInstances }

/-- Whether an instance's callback methods return promises when the trailing
callback is omitted: true exactly when `promisify` has rewritten them. -/
def returnsPromise (w : QWrapWorld) (inst : Nat) : Bool :=
  w.promisifiedInstances.contains inst

/-- The per-instance state `shutdown` acts on: whether the auto-check
interval is running and whether the scheduling client connection is open. -/
structure SchedState where
  checkingActive : Bool
  clientOpen : Bool
deriving DecidableEq, Repr

/-- `shutdown(leaveClientOpen)` (src/index.js:214-219): if the instance has a
`stopChecking` method (defined only when auto-checking was scheduled), call
it, clearing the interval; then `if(!!leaveClientOpen) this.client.quit()`.
Returns the resulting state and whether `quit()` was called. -/
def shutdown (hasStopChecking leaveClientOpen : Bool) (s : SchedState) :
    SchedState × Bool :=
  let s1 := if hasStopChecking then { s with checkingActive := false } else s
  if leaveClientOpen then ({ s1 with clientOpen := false }, true) else (s1, false)

end ReScheduler

namespace ReScheduler

/-! ## Helper lemmas about the Redis primitives -/

lemma mem_zrangebyscore {z : List ZEntry} {a b : Int} {e : ZEntry} :
    e ∈ zrangebyscore z a b ↔ e ∈ z ∧ a ≤ e.score ∧ e.score ≤ b := by
  simp [zrangebyscore, List.mem_filter, and_assoc]

lemma mem_zremrangebyscore {z : List ZEntry} {a b : Int} {e : ZEntry} :
    e ∈ zremrangebyscore z a b ↔ e ∈ z ∧ ¬(a ≤ e.score ∧ e.score ≤ b) := by
  simp only [zremrangebyscore, List.mem_filter, Bool.not_eq_true', Bool.and_eq_false_iff,
    decide_eq_false_iff_not, not_and, not_le]
  constructor
  · rintro ⟨he, h⟩
    exact ⟨he, by omega⟩
  · rintro ⟨he, h⟩
    exact ⟨he, by omega⟩

lemma mem_zrem {z : List ZEntry} {ms : List Payload} {e : ZEntry} :
    e ∈ zrem z ms ↔ e ∈ z ∧ e.payload ∉ ms := by
  simp [zrem, List.mem_filter]

lemma zrangebyscore_eq_nil {z : List ZEntry} {a b : Int}
    (h : ∀ e ∈ z, ¬(a ≤ e.score ∧ e.score ≤ b)) : zrangebyscore z a b = [] := by
  simp only [zrangebyscore, List.filter_eq_nil_iff]
  intro e he
  simpa using h e he

lemma zrangebyscore_nil_forall {z : List ZEntry} {a b : Int}
    (h : zrangebyscore z a b = []) :
    ∀ e ∈ z, ¬(a ≤ e.score ∧ e.score ≤ b) := by
  intro e he
  have := List.filter_eq_nil_iff.mp h e he
  simpa using this

/-! ## Shape lemmas for the two promotion paths -/

lemma checkNow_true_eq (useEval : Bool) (now : Int) (s : RedisState) :
    checkNow true useEval now s =
      .ok (if useEval then luaCheck now s else fallbackCheck now s) := by
  cases useEval <;> rfl

lemma luaCheck_nil {now : Int} {s : RedisState}
    (h : zrangebyscore s.zset 0 now = []) : luaCheck now s = (s, 0) := by
  simp [luaCheck, h]

lemma luaCheck_ne_nil {now : Int} {s : RedisState}
    (h : zrangebyscore s.zset 0 now ≠ []) :
    luaCheck now s =
      ({ zset := zremrangebyscore s.zset 0 now,
         queue := s.queue ++ (zrangebyscore s.zset 0 now).map ZEntry.payload },
       (zrangebyscore s.zset 0 now).length) := by
  simp [luaCheck, rpush, List.length_eq_zero, h]

lemma fallbackCheck_nil {now : Int} {s : RedisState}
    (h : zrangebyscore s.zset 0 now = []) : fallbackCheck now s = (s, 0) := by
  simp [fallbackCheck, h]

lemma fallbackCheck_ne_nil {now : Int} {s : RedisState}
    (h : zrangebyscore s.zset 0 now ≠ []) :
    fallbackCheck now s =
      ({ zset := zrem s.zset ((zrangebyscore s.zset 0 now).map ZEntry.payload),
         queue := s.queue ++ (zrangebyscore s.zset 0 now).map ZEntry.payload },
       (zrangebyscore s.zset 0 now).length) := by
  simp [fallbackCheck, rpush, List.length_eq_zero, h]

/-- With distinct payloads in the sorted set, a member's payload appears
among the promoted payloads exactly when its own score is in `[0, now]`. -/
lemma payload_mem_winners {s : RedisState} {now : Int} {e : ZEntry}
    (hnodup : (s.zset.map ZEntry.payload).Nodup) (he : e ∈ s.zset) :
    e.payload ∈ (zrangebyscore s.zset 0 now).map ZEntry.payload ↔
      (0 ≤ e.score ∧ e.score ≤ now) := by
  constructor
  · intro hp
    rcases List.mem_map.mp hp with ⟨w, hw, hwp⟩
    rcases mem_zrangebyscore.mp hw with ⟨hwz, h0, hn⟩
    have hwe : w = e := List.inj_on_of_nodup_map hnodup hwz he hwp
    subst hwe
    exact ⟨h0, hn⟩
  · rintro ⟨h0, hn⟩
    exact List.mem_map.mpr ⟨e, mem_zrangebyscore.mpr ⟨he, h0, hn⟩, rfl⟩

lemma luaCheck_zset_mem {now : Int} {s : RedisState} {e : ZEntry} :
    e ∈ (luaCheck now s).1.zset ↔ e ∈ s.zset ∧ ¬(0 ≤ e.score ∧ e.score ≤ now) := by
  by_cases h : zrangebyscore s.zset 0 now = []
  · rw [luaCheck_nil h]
    exact ⟨fun he => ⟨he, zrangebyscore_nil_forall h e he⟩, fun hp => hp.1⟩
  · rw [luaCheck_ne_nil h]
    exact mem_zremrangebyscore

lemma fallbackCheck_zset_mem {now : Int} {s : RedisState} {e : ZEntry}
    (hnodup : (s.zset.map ZEntry.payload).Nodup) :
    e ∈ (fallbackCheck now s).1.zset ↔ e ∈ s.zset ∧ ¬(0 ≤ e.score ∧ e.score ≤ now) := by
  by_cases h : zrangebyscore s.zset 0 now = []
  · rw [fallbackCheck_nil h]
    exact ⟨fun he => ⟨he, zrangebyscore_nil_forall h e he⟩, fun hp => hp.1⟩
  · rw [fallbackCheck_ne_nil h, mem_zrem]
    constructor
    · rintro ⟨he, hnp⟩
      exact ⟨he, fun hc => hnp ((payload_mem_winners hnodup he).mpr hc)⟩
    · rintro ⟨he, hnc⟩
      exact ⟨he, fun hp => hnc ((payload_mem_winners hnodup he).mp hp)⟩

lemma luaCheck_queue {now : Int} {s : RedisState} :
    (luaCheck now s).1.queue =
      s.queue ++ (zrangebyscore s.zset 0 now).map ZEntry.payload := by
  by_cases h : zrangebyscore s.zset 0 now = []
  · rw [luaCheck_nil h, h]
    simp
  · rw [luaCheck_ne_nil h]

lemma fallbackCheck_queue {now : Int} {s : RedisState} :
    (fallbackCheck now s).1.queue =
      s.queue ++ (zrangebyscore s.zset 0 now).map ZEntry.payload := by
  by_cases h : zrangebyscore s.zset 0 now = []
  · rw [fallbackCheck_nil h, h]
    simp
  · rw [fallbackCheck_ne_nil h]

lemma luaCheck_count {now : Int} {s : RedisState} :
    (luaCheck now s).2 = (zrangebyscore s.zset 0 now).length := by
  by_cases h : zrangebyscore s.zset 0 now = []
  · rw [luaCheck_nil h, h]
    rfl
  · rw [luaCheck_ne_nil h]

lemma fallbackCheck_count {now : Int} {s : RedisState} :
    (fallbackCheck now s).2 = (zrangebyscore s.zset 0 now).length := by
  by_cases h : zrangebyscore s.zset 0 now = []
  · rw [fallbackCheck_nil h, h]
    rfl
  · rw [fallbackCheck_ne_nil h]

/-- `zinsert` produces a permutation of consing the new entry. -/
lemma zinsert_perm (e : ZEntry) (l : List ZEntry) : (zinsert e l).Perm (e :: l) := by
  induction l with
  | nil => exact List.Perm.refl _
  | cons x xs ih =>
    by_cases h : zkeyLE e x
    · simp [zinsert, h]
    · simp only [zinsert, h, if_false, Bool.false_eq_true]
      exact (ih.cons x).trans (List.Perm.swap e x xs)

/-- Removing a payload that is present exactly once shortens the set by one. -/
lemma filter_payload_length (p : Payload) :
    ∀ z : List ZEntry, (z.map ZEntry.payload).Nodup → p ∈ z.map ZEntry.payload →
      (z.filter (fun e => !(e.payload == p))).length + 1 = z.length := by
  intro z
  induction z with
  | nil => simp
  | cons x xs ih =>
    intro hnodup hp
    simp only [List.map_cons, List.nodup_cons] at hnodup
    rcases List.mem_cons.mp hp with hpx | hpxs
    · subst hpx
      have hfx : xs.filter (fun e => !(e.payload == x.payload)) = xs :=
        List.filter_eq_self.mpr (fun e he => by
          simp only [Bool.not_eq_eq_eq_not, Bool.not_true, beq_eq_false_iff_ne, ne_eq]
          intro hc
          exact hnodup.1 (hc ▸ List.mem_map_of_mem ZEntry.payload he))
      simp [List.filter_cons, hfx]
    · have hne : ¬(x.payload = p) := fun hc => hnodup.1 (hc ▸ hpxs)
      have := ih hnodup.2 hpxs
      simp only [List.filter_cons]
      rw [if_pos (by simp [hne])]
      simp only [List.length_cons]
      omega

end ReScheduler

namespace ReScheduler

/-! ## Claim theorems -/

/-- Claim C1, counterexample to the claim as stated: the entry `("A", -3)`
has `executionTime = -3 ≤ 5 = now`, yet `checkNow` leaves the state
untouched and returns 0 — the Lua script (and the fallback) selects with
`zrangebyscore key 0 maxTs`, so negative scores are never promoted. -/
theorem checkNow_negative_score_counterexample :
    (-3 : Int) ≤ 5 ∧
    checkNow true true 5 { zset := [⟨"A", -3⟩], queue := [] } =
      .ok ({ zset := [⟨"A", -3⟩], queue := [] }, 0) :=
  ⟨by decide, rfl⟩

/-- Claim C1 (amended: `0 ≤ executionTime` added): on either promotion path,
every payload present in the scheduler set with `0 ≤ executionTime ≤ now` at
the moment `checkNow` runs is afterwards present in the destination queue and
absent from the scheduler set, and `checkNow` returns the number of payloads
promoted. -/
theorem checkNow_promotes_ready (useEval : Bool) (now : Int) (e : ZEntry)
    (s : RedisState) (hmem : e ∈ s.zset) (h0 : 0 ≤ e.score) (hnow : e.score ≤ now)
    (hnodup : (s.zset.map ZEntry.payload).Nodup) :
    ∃ s' n, checkNow true useEval now s = .ok (s', n) ∧
      e.payload ∈ s'.queue ∧
      e.payload ∉ s'.zset.map ZEntry.payload ∧
      n = (zrangebyscore s.zset 0 now).length := by
  rw [checkNow_true_eq]
  cases useEval
  · rw [if_neg (by decide)]
    refine ⟨(fallbackCheck now s).1, (fallbackCheck now s).2, rfl, ?_, ?_, ?_⟩
    · rw [fallbackCheck_queue]
      exact List.mem_append_right _ ((payload_mem_winners hnodup hmem).mpr ⟨h0, hnow⟩)
    · intro hp
      rcases List.mem_map.mp hp with ⟨w, hw, hwp⟩
      have hw2 := (fallbackCheck_zset_mem hnodup).mp hw
      have hwe : w = e := List.inj_on_of_nodup_map hnodup hw2.1 hmem hwp
      subst hwe
      exact hw2.2 ⟨h0, hnow⟩
    · exact fallbackCheck_count
  · rw [if_pos rfl]
    refine ⟨(luaCheck now s).1, (luaCheck now s).2, rfl, ?_, ?_, ?_⟩
    · rw [luaCheck_queue]
      exact List.mem_append_right _ ((payload_mem_winners hnodup hmem).mpr ⟨h0, hnow⟩)
    · intro hp
      rcases List.mem_map.mp hp with ⟨w, hw, hwp⟩
      have hw2 := luaCheck_zset_mem.mp hw
      have hwe : w = e := List.inj_on_of_nodup_map hnodup hw2.1 hmem hwp
      subst hwe
      exact hw2.2 ⟨h0, hnow⟩
    · exact luaCheck_count

/-- Witness for `checkNow_promotes_ready`: a ready item `("A", 3)` with
`now = 5` is promoted by the server-eval path. -/
theorem checkNow_promotes_ready_witness :
    ∃ s' n,
      checkNow true true 5 { zset := [⟨"A", 3⟩], queue := [] } = .ok (s', n) ∧
      (ZEntry.mk "A" 3).payload ∈ s'.queue ∧
      (ZEntry.mk "A" 3).payload ∉ s'.zset.map ZEntry.payload ∧
      n = (zrangebyscore ({ zset := [⟨"A", 3⟩], queue := [] } : RedisState).zset
        0 5).length :=
  checkNow_promotes_ready true 5 ⟨"A", 3⟩ { zset := [⟨"A", 3⟩], queue := [] }
    (by decide) (by decide) (by decide) (by decide)

/-- Claim C2: on either promotion path, a payload with `executionTime > now`
at the moment `checkNow` runs is left in the scheduler set with its score
unchanged (the very entry is still a member) and is not among the payloads
appended to the destination queue. -/
theorem checkNow_leaves_unready (useEval : Bool) (now : Int) (e : ZEntry)
    (s : RedisState) (hmem : e ∈ s.zset) (hfuture : now < e.score)
    (hnodup : (s.zset.map ZEntry.payload).Nodup) :
    ∃ s' n appended, checkNow true useEval now s = .ok (s', n) ∧
      e ∈ s'.zset ∧ s'.queue = s.queue ++ appended ∧ e.payload ∉ appended := by
  have hnr : ¬(0 ≤ e.score ∧ e.score ≤ now) := fun hc => absurd hc.2 (not_le.mpr hfuture)
  have hnapp : e.payload ∉ (zrangebyscore s.zset 0 now).map ZEntry.payload :=
    fun hp => hnr ((payload_mem_winners hnodup hmem).mp hp)
  rw [checkNow_true_eq]
  cases useEval
  · rw [if_neg (by decide)]
    exact ⟨(fallbackCheck now s).1, (fallbackCheck now s).2, _, rfl,
      (fallbackCheck_zset_mem hnodup).mpr ⟨hmem, hnr⟩, fallbackCheck_queue, hnapp⟩
  · rw [if_pos rfl]
    exact ⟨(luaCheck now s).1, (luaCheck now s).2, _, rfl,
      luaCheck_zset_mem.mpr ⟨hmem, hnr⟩, luaCheck_queue, hnapp⟩

/-- Witness for `checkNow_leaves_unready`: the entry `("B", 9)` with
`now = 5` stays in the scheduler set and is not appended. -/
theorem checkNow_leaves_unready_witness :
    ∃ s' n appended,
      checkNow true true 5 { zset := [⟨"B", 9⟩], queue := [] } = .ok (s', n) ∧
      ZEntry.mk "B" 9 ∈ s'.zset ∧
      s'.queue = ({ zset := [⟨"B", 9⟩], queue := [] } : RedisState).queue ++ appended ∧
      (ZEntry.mk "B" 9).payload ∉ appended :=
  checkNow_leaves_unready true 5 ⟨"B", 9⟩ { zset := [⟨"B", 9⟩], queue := [] }
    (by decide) (by decide) (by decide)

/-- Claim C3: on either promotion path, the promoted payloads are appended to
the destination queue as exactly the `zrangebyscore` output in set order;
that output is sorted by ascending score, and an item with strictly smaller
score occupies a strictly earlier position in the appended block. -/
theorem checkNow_appends_in_score_order (useEval : Bool) (now : Int)
    (s : RedisState) (hsorted : ZSorted s.zset) :
    ∃ s' n, checkNow true useEval now s = .ok (s', n) ∧
      s'.queue = s.queue ++ (zrangebyscore s.zset 0 now).map ZEntry.payload ∧
      (zrangebyscore s.zset 0 now).Pairwise (fun a b => a.score ≤ b.score) ∧
      (∀ i j : Fin (zrangebyscore s.zset 0 now).length,
        ((zrangebyscore s.zset 0 now).get i).score <
            ((zrangebyscore s.zset 0 now).get j).score →
          (i : Nat) < (j : Nat)) := by
  have hpw : (zrangebyscore s.zset 0 now).Pairwise (fun a b => a.score ≤ b.score) := by
    refine (List.Pairwise.filter _ hsorted).imp ?_
    rintro a b (h | ⟨h, -⟩)
    · exact le_of_lt h
    · exact le_of_eq h
  have hidx : ∀ i j : Fin (zrangebyscore s.zset 0 now).length,
      ((zrangebyscore s.zset 0 now).get i).score <
          ((zrangebyscore s.zset 0 now).get j).score →
        (i : Nat) < (j : Nat) := by
    intro i j hij
    rcases Nat.lt_trichotomy (i : Nat) (j : Nat) with h | h | h
    · exact h
    · exfalso
      have heq : i = j := Fin.ext h
      subst heq
      exact lt_irrefl _ hij
    · exfalso
      have hle := List.pairwise_iff_get.mp hpw j i h
      exact absurd hij (not_lt.mpr hle)
  rw [checkNow_true_eq]
  cases useEval
  · rw [if_neg (by decide)]
    exact ⟨(fallbackCheck now s).1, (fallbackCheck now s).2, rfl,
      fallbackCheck_queue, hpw, hidx⟩
  · rw [if_pos rfl]
    exact ⟨(luaCheck now s).1, (luaCheck now s).2, rfl, luaCheck_queue, hpw, hidx⟩

/-- Witness for `checkNow_appends_in_score_order`: both `("A", 1)` and
`("B", 4)` are ready at `now = 7` and are appended in score order by the
fallback path. -/
theorem checkNow_appends_in_score_order_witness :
    ∃ s' n,
      checkNow true false 7 { zset := [⟨"A", 1⟩, ⟨"B", 4⟩], queue := [] } = .ok (s', n) ∧
      s'.queue = ({ zset := [⟨"A", 1⟩, ⟨"B", 4⟩], queue := [] } : RedisState).queue ++
        (zrangebyscore ({ zset := [⟨"A", 1⟩, ⟨"B", 4⟩], queue := [] } : RedisState).zset
          0 7).map ZEntry.payload ∧
      (zrangebyscore ({ zset := [⟨"A", 1⟩, ⟨"B", 4⟩], queue := [] } : RedisState).zset
        0 7).Pairwise (fun a b => a.score ≤ b.score) ∧
      (∀ i j : Fin (zrangebyscore
          ({ zset := [⟨"A", 1⟩, ⟨"B", 4⟩], queue := [] } : RedisState).zset 0 7).length,
        ((zrangebyscore ({ zset := [⟨"A", 1⟩, ⟨"B", 4⟩], queue := [] } : RedisState).zset
            0 7).get i).score <
            ((zrangebyscore
              ({ zset := [⟨"A", 1⟩, ⟨"B", 4⟩], queue := [] } : RedisState).zset
                0 7).get j).score →
          (i : Nat) < (j : Nat)) :=
  checkNow_appends_in_score_order false 7 { zset := [⟨"A", 1⟩, ⟨"B", 4⟩], queue := [] }
    (by unfold ZSorted; decide)

/-- Claim C4: `onReady` selects the atomic server-side path exactly when
`forceNoServerEval` is false and the reported version triple is at least
`minVersionForEval = (2, 6, 0)` lexicographically; in particular versions
(2,6,0) and (3,0,0) select the atomic path and (2,5,9) selects the
fallback. -/
theorem onReady_selects_atomic_iff :
    (∀ v, onReadyCanUseEval true v = false) ∧
    (∀ force v, onReadyCanUseEval force v =
      (!force && specVersionAtLeast v minVersionForEval)) ∧
    onReadyCanUseEval false (2, 6, 0) = true ∧
    onReadyCanUseEval false (3, 0, 0) = true ∧
    onReadyCanUseEval false (2, 5, 9) = false := by
  refine ⟨fun v => rfl, ?_, by decide, by decide, by decide⟩
  rintro force ⟨a, b, c⟩
  cases force
  · simp only [Bool.not_false, Bool.true_and, onReadyCanUseEval, minVersionForEval,
      specVersionAtLeast, if_false, Bool.false_eq_true]
    split_ifs <;> simp_all <;> omega
  · rfl

/-- Claim C5: if no member of the scheduler set has score ≤ the evaluation
timestamp, `checkNow` (either path) succeeds with result 0 and leaves both
the scheduler set and the destination queue exactly unchanged. -/
theorem checkNow_nothing_ready (useEval : Bool) (now : Int) (s : RedisState)
    (h : ∀ e ∈ s.zset, ¬ e.score ≤ now) :
    checkNow true useEval now s = .ok (s, 0) := by
  have hnil : zrangebyscore s.zset 0 now = [] :=
    zrangebyscore_eq_nil (fun e he hc => h e he hc.2)
  rw [checkNow_true_eq]
  cases useEval
  · rw [if_neg (by decide), fallbackCheck_nil hnil]
  · rw [if_pos rfl, luaCheck_nil hnil]

/-- Witness for `checkNow_nothing_ready`: with only `("A", 9)` scheduled and
`now = 5`, `checkNow` returns 0 and changes nothing. -/
theorem checkNow_nothing_ready_witness :
    checkNow true true 5 { zset := [⟨"A", 9⟩], queue := ["x"] } =
      .ok ({ zset := [⟨"A", 9⟩], queue := ["x"] }, 0) :=
  checkNow_nothing_ready true 5 { zset := [⟨"A", 9⟩], queue := ["x"] } (by decide)

/-- Claim C6: calling `pop` with the scheduling connection as the consumer
handle makes the callback receive a usage Error immediately, and no backing
store command at all is issued. -/
theorem pop_same_client_rejected (c : Nat) (targetList : String)
    (timeout : Option Nat) (reply : Except String (Option (String × Payload))) :
    pop c c targetList timeout reply =
      ([], .cbError
        "The Redis client provided to pop() is the same as that being used for scheduling!") := by
  simp [pop]

/-- Claim C7 (code bug): with a distinct consumer handle, an omitted timeout
defaults to 0 in the issued `blpop` (first conjunct), but when the blocking
wait times out node_redis hands the callback a nil reply and the handler
evaluates `res[1]` on `null`, throwing a TypeError instead of delivering an
absent result (second conjunct); a successful reply delivers the value
(third conjunct). -/
theorem pop_nil_reply_throws :
    pop 0 1 "myqueue" none (.ok none) = ([.blpop "myqueue" 0], .typeError) ∧
    pop 0 1 "myqueue" (some 5) (.ok none) = ([.blpop "myqueue" 5], .typeError) ∧
    pop 0 1 "myqueue" (some 5) (.ok (some ("myqueue", "v"))) =
      ([.blpop "myqueue" 5], .cbValue (some "v")) :=
  ⟨rfl, rfl, rfl⟩

/-- Claim C8: `enqueueAt` upserts — it returns 0 when the payload was already
present (whose score is then updated to the new timestamp, every surviving
entry with that payload carrying it) and 1 when newly created, and the set's
cardinality is unchanged resp. grows by one. -/
theorem enqueueAt_upserts (ts : Int) (p : Payload) (z : List ZEntry)
    (hnodup : (z.map ZEntry.payload).Nodup) :
    ((enqueueAt ts p z).2 = if p ∈ z.map ZEntry.payload then 0 else 1) ∧
    ZEntry.mk p ts ∈ (enqueueAt ts p z).1 ∧
    (∀ e ∈ (enqueueAt ts p z).1, e.payload = p → e = ZEntry.mk p ts) ∧
    zcard (enqueueAt ts p z).1 =
      (if p ∈ z.map ZEntry.payload then zcard z else zcard z + 1) := by
  have hperm := zinsert_perm ⟨p, ts⟩ (z.filter (fun e => !(e.payload == p)))
  refine ⟨rfl, ?_, ?_, ?_⟩
  · exact hperm.mem_iff.mpr (List.mem_cons_self _ _)
  · intro e he hep
    rcases List.mem_cons.mp (hperm.mem_iff.mp he) with h | h
    · exact h
    · exfalso
      have := (List.mem_filter.mp h).2
      simp only [Bool.not_eq_eq_eq_not, Bool.not_true, beq_eq_false_iff_ne, ne_eq] at this
      exact this hep
  · show (zinsert ⟨p, ts⟩ (z.filter (fun e => !(e.payload == p)))).length = _
    rw [hperm.length_eq, List.length_cons]
    by_cases hp : p ∈ z.map ZEntry.payload
    · rw [if_pos hp]
      exact filter_payload_length p z hnodup hp
    · rw [if_neg hp]
      have hfe : z.filter (fun e => !(e.payload == p)) = z :=
        List.filter_eq_self.mpr (fun e he => by
          simp only [Bool.not_eq_eq_eq_not, Bool.not_true, beq_eq_false_iff_ne, ne_eq]
          intro hc
          exact hp (hc ▸ List.mem_map_of_mem ZEntry.payload he))
      rw [hfe]
      rfl

/-- Witness for `enqueueAt_upserts`: re-enqueuing the pending payload "A" at
timestamp 7 returns 0, rescores it and keeps cardinality 1. -/
theorem enqueueAt_upserts_witness :
    ((enqueueAt 7 "A" [⟨"A", 3⟩]).2 =
      if "A" ∈ ([⟨"A", 3⟩] : List ZEntry).map ZEntry.payload then 0 else 1) ∧
    ZEntry.mk "A" 7 ∈ (enqueueAt 7 "A" [⟨"A", 3⟩]).1 ∧
    (∀ e ∈ (enqueueAt 7 "A" [⟨"A", 3⟩]).1, e.payload = "A" → e = ZEntry.mk "A" 7) ∧
    zcard (enqueueAt 7 "A" [⟨"A", 3⟩]).1 =
      (if "A" ∈ ([⟨"A", 3⟩] : List ZEntry).map ZEntry.payload then
        zcard [⟨"A", 3⟩] else zcard [⟨"A", 3⟩] + 1) :=
  enqueueAt_upserts 7 "A" [⟨"A", 3⟩] (by decide)

/-- Claim C9 (code bug): the `wrapped` guard is shared by all instances, so
after instance 0 calls `qWrap`, instance 1's own `qWrap` call is a no-op and
instance 1's methods still do not return promises; repeating `qWrap` on the
same instance 0 is harmless. -/
theorem qWrap_shared_wrapped_flag :
    qWrapCall (qWrapCall { wrapped := false, promisifiedInstances := [] } 0) 1 =
      { wrapped := true, promisifiedInstances := [0] } ∧
    returnsPromise
      (qWrapCall (qWrapCall { wrapped := false, promisifiedInstances := [] } 0) 1) 1 =
      false ∧
    returnsPromise
      (qWrapCall (qWrapCall { wrapped := false, promisifiedInstances := [] } 0) 0) 0 =
      true :=
  ⟨rfl, rfl, rfl⟩

/-- Claim C10: `shutdown(leaveClientOpen)` always leaves automatic checking
stopped (given that an active checker implies `stopChecking` exists), and
calls `quit()` on the scheduling client exactly when `leaveClientOpen` is
truthy; when it is false or omitted the client connection is untouched. -/
theorem shutdown_effects (hasStopChecking leaveClientOpen : Bool)
    (s : SchedState) (h : s.checkingActive = true → hasStopChecking = true) :
    (shutdown hasStopChecking leaveClientOpen s).1.checkingActive = false ∧
    (shutdown hasStopChecking leaveClientOpen s).2 = leaveClientOpen ∧
    (leaveClientOpen = false →
      (shutdown hasStopChecking leaveClientOpen s).1.clientOpen = s.clientOpen) ∧
    (leaveClientOpen = true →
      (shutdown hasStopChecking leaveClientOpen s).1.clientOpen = false) := by
  rcases s with ⟨ca, co⟩
  cases ca <;> cases hasStopChecking <;> cases leaveClientOpen <;>
    simp_all [shutdown]

/-- Witness for `shutdown_effects`: with active checking and
`leaveClientOpen = false`, checking stops, no `quit()` happens and the
client stays open. -/
theorem shutdown_effects_witness :
    (shutdown true false { checkingActive := true, clientOpen := true }).1.checkingActive =
      false ∧
    (shutdown true false { checkingActive := true, clientOpen := true }).2 = false ∧
    (false = false →
      (shutdown true false { checkingActive := true, clientOpen := true }).1.clientOpen =
        ({ checkingActive := true, clientOpen := true } : SchedState).clientOpen) ∧
    (false = true →
      (shutdown true false { checkingActive := true, clientOpen := true }).1.clientOpen =
        false) :=
  shutdown_effects true false { checkingActive := true, clientOpen := true }
    (fun _ => rfl)

end ReScheduler
